import Mathlib

/-!
Shallow embedding of the stabilization-and-commit engine of
ml/src/predict/live_predict.py: the PredictionState class, the inline
ambiguity resolver of its two callers, the predict_from_bgr tuple shapes,
and the clear_buffer route. Python strings are modelled as Lean String
for labels and as List Char for the mutable text buffer; times and
confidences are rationals; the Dispatch Gateway outcome is carried on
each frame as an Except value.
-/

namespace LivePredict

instance {ε α : Type} [DecidableEq ε] [DecidableEq α] :
    DecidableEq (Except ε α) := fun x y =>
  match x, y with
  | .ok a, .ok b =>
      if h : a = b then isTrue (by rw [h])
      else isFalse (by intro hc; cases hc; exact h rfl)
  | .error a, .error b =>
      if h : a = b then isTrue (by rw [h])
      else isFalse (by intro hc; cases hc; exact h rfl)
  | .ok _, .error _ => isFalse (by intro hc; cases hc)
  | .error _, .ok _ => isFalse (by intro hc; cases hc)

/-- Threshold constants from the CONFIG block of live_predict.py. -/
def APPEND_CONFIDENCE_THRESHOLD : ℚ := 60

def STABLE_FRAMES_REQUIRED : Nat := 2

def SEND_STABLE_FRAMES_REQUIRED : Nat := 1

def APPEND_COOLDOWN_SECONDS : ℚ := 4/5

def WORD_SEPARATOR_LABEL : String := "ok"

def SEND_TRIGGER_LABEL : String := "done"

def SEPARATOR_CONFIDENCE_THRESHOLD : ℚ := 35

def SEPARATOR_STABLE_FRAMES_REQUIRED : Nat := 1

def SEPARATOR_COOLDOWN_SECONDS : ℚ := 3/5

def SEND_COOLDOWN_SECONDS : ℚ := 2

def DONE_CONFIDENCE_THRESHOLD : ℚ := 75

def DONE_MIN_MARGIN : ℚ := 12

def EXPECTED_LEN : Nat := 63

/-- One classification frame as consumed by PredictionState.update: the
arguments label, confidence, hand_detected, margin, the value time.time()
returns at this frame, and the outcome the Dispatch Gateway would give if
post_generate_audio were called on this frame. -/
structure Frame where
  label : String
  confidence : ℚ
  hand : Bool
  margin : ℚ
  now : ℚ
  dispatch : Except String String
deriving DecidableEq, Repr

/-- The mutable fields of PredictionState. The Python str typed_text is
modelled as a list of characters. -/
structure State where
  typed_text : List Char
  last_predicted_label : String
  stable_count : Nat
  last_appended_label : String
  last_append_time : ℚ
  last_send_time : ℚ
  last_committed_label : String
  hand_left_since_commit : Bool
deriving DecidableEq, Repr

/-- PredictionState.__init__. -/
def initState : State :=
  { typed_text := []
    last_predicted_label := ""
    stable_count := 0
    last_appended_label := ""
    last_append_time := 0
    last_send_time := 0
    last_committed_label := ""
    hand_left_since_commit := true }

/-- The post_result dictionaries update may return. -/
inductive PostResult where
  | sendOk (audioUrl : String) (text : List Char)
  | sendFail (error : String) (text : List Char)
  | space (text : List Char)
deriving DecidableEq, Repr

/-- Python str.strip applied to the buffer: whitespace removed from both
ends. -/
def pyStrip (l : List Char) : List Char :=
  (((l.dropWhile Char.isWhitespace).reverse).dropWhile Char.isWhitespace).reverse

/-- Python typed_text.endswith applied with a single space. -/
def endsWithSpace (l : List Char) : Bool :=
  l.getLast? == some ' '

/-- The stabilization part of update: streak bookkeeping on a
hand-present frame. -/
def stabilize (s : State) (f : Frame) : State :=
  if f.label = s.last_predicted_label then
    { s with stable_count := s.stable_count + 1 }
  else
    { s with last_predicted_label := f.label, stable_count := 1 }

/-- Guard of the send rule, evaluated on the state the send conditional
reads in update. -/
def SendCond (s : State) (f : Frame) : Prop :=
  f.label = SEND_TRIGGER_LABEL ∧
  f.confidence ≥ DONE_CONFIDENCE_THRESHOLD ∧
  f.margin ≥ DONE_MIN_MARGIN ∧
  s.stable_count ≥ SEND_STABLE_FRAMES_REQUIRED ∧
  f.now - s.last_send_time ≥ SEND_COOLDOWN_SECONDS

instance (s : State) (f : Frame) : Decidable (SendCond s f) :=
  inferInstanceAs (Decidable (_ ∧ _ ∧ _ ∧ _ ∧ _))

/-- Guard of the separator rule, evaluated on the state the separator
conditional reads in update. -/
def SepCond (s : State) (f : Frame) : Prop :=
  f.label = WORD_SEPARATOR_LABEL ∧
  f.confidence ≥ SEPARATOR_CONFIDENCE_THRESHOLD ∧
  s.stable_count ≥ SEPARATOR_STABLE_FRAMES_REQUIRED ∧
  s.typed_text ≠ [] ∧
  endsWithSpace s.typed_text = false ∧
  f.now - s.last_append_time ≥ SEPARATOR_COOLDOWN_SECONDS

instance (s : State) (f : Frame) : Decidable (SepCond s f) :=
  inferInstanceAs (Decidable (_ ∧ _ ∧ _ ∧ _ ∧ _ ∧ _))

/-- Guard of the append rule, evaluated on the state the append
conditional reads in update. -/
def AppendCond (s : State) (f : Frame) : Prop :=
  f.label ≠ SEND_TRIGGER_LABEL ∧
  f.label ≠ WORD_SEPARATOR_LABEL ∧
  f.confidence ≥ APPEND_CONFIDENCE_THRESHOLD ∧
  s.stable_count ≥ STABLE_FRAMES_REQUIRED ∧
  (s.hand_left_since_commit = true ∨ f.label ≠ s.last_committed_label) ∧
  (f.label ≠ s.last_appended_label ∨
    f.now - s.last_append_time ≥ APPEND_COOLDOWN_SECONDS)

instance (s : State) (f : Frame) : Decidable (AppendCond s f) :=
  inferInstanceAs (Decidable (_ ∧ _ ∧ _ ∧ _ ∧ _ ∧ _))

/-- The send conditional of update: dispatch on a non-empty stripped
buffer, clear the buffer only on success, always refresh the send
bookkeeping when the guard holds. -/
def sendBlock (s : State) (f : Frame) : State × Option PostResult :=
  if SendCond s f then
    let text := pyStrip s.typed_text
    let sr : State × Option PostResult :=
      if text ≠ [] then
        match f.dispatch with
        | .error e => (s, some (.sendFail e text))
        | .ok url => ({ s with typed_text := [] }, some (.sendOk url text))
      else
        (s, none)
    ({ sr.1 with
        last_send_time := f.now
        last_committed_label := f.label
        hand_left_since_commit := false }, sr.2)
  else
    (s, none)

/-- The separator conditional of update. -/
def sepBlock (s : State) (f : Frame) : State × Option PostResult :=
  if SepCond s f then
    let t := s.typed_text ++ [' ']
    ({ s with
        typed_text := t
        last_appended_label := f.label
        last_append_time := f.now
        last_committed_label := f.label
        hand_left_since_commit := false }, some (.space t))
  else
    (s, none)

/-- The append conditional of update. -/
def appendBlock (s : State) (f : Frame) : State :=
  if AppendCond s f then
    { s with
        typed_text := s.typed_text ++ f.label.data
        last_appended_label := f.label
        last_append_time := f.now
        last_committed_label := f.label
        hand_left_since_commit := false }
  else
    s

/-- PredictionState.update. On a hand-absent frame only the reset path
runs; otherwise the stabilization step runs, then the three commit
conditionals in source order, the separator post_result overwriting the
send one exactly when it is set. -/
def update (s : State) (f : Frame) : State × Option PostResult :=
  if f.hand = true then
    let s1 := stabilize s f
    let sr2 := sendBlock s1 f
    let sr3 := sepBlock sr2.1 f
    let s4 := appendBlock sr3.1 f
    (s4, match sr3.2 with
         | some r => some r
         | none => sr2.2)
  else
    ({ s with
        hand_left_since_commit := true
        last_predicted_label := ""
        stable_count := 0 }, none)

/-- The state component of update. -/
def step (s : State) (f : Frame) : State := (update s f).1

/-- Sequential frame handling: one update per frame, in order. -/
def run (s : State) (fs : List Frame) : State := fs.foldl step s

/-- The send rule fires on this frame: hand present and the send guard
holds on the stabilized state. -/
def SendFires (s : State) (f : Frame) : Prop :=
  f.hand = true ∧ SendCond (stabilize s f) f

instance (s : State) (f : Frame) : Decidable (SendFires s f) :=
  inferInstanceAs (Decidable (_ ∧ _))

/-- The separator rule fires on this frame: hand present and the
separator guard holds on the state the separator conditional reads. -/
def SepFires (s : State) (f : Frame) : Prop :=
  f.hand = true ∧ SepCond (sendBlock (stabilize s f) f).1 f

instance (s : State) (f : Frame) : Decidable (SepFires s f) :=
  inferInstanceAs (Decidable (_ ∧ _))

/-- The append rule fires on this frame: hand present and the append
guard holds on the state the append conditional reads. -/
def AppendFires (s : State) (f : Frame) : Prop :=
  f.hand = true ∧
  AppendCond (sepBlock (sendBlock (stabilize s f) f).1 f).1 f

instance (s : State) (f : Frame) : Decidable (AppendFires s f) :=
  inferInstanceAs (Decidable (_ ∧ _))

/-- Some commit rule fires on this frame. -/
def CommitFires (s : State) (f : Frame) : Prop :=
  SendFires s f ∨ SepFires s f ∨ AppendFires s f

instance (s : State) (f : Frame) : Decidable (CommitFires s f) :=
  inferInstanceAs (Decidable (_ ∨ _ ∨ _))

/-- The clear-buffer route of run_server_mode: field-by-field reset as
written in the source, returning success and the buffer. -/
def clear_buffer (s : State) : State × (Bool × List Char) :=
  let s1 := { s with typed_text := ([] : List Char) }
  let s2 := { s1 with last_predicted_label := "" }
  let s3 := { s2 with stable_count := 0 }
  let s4 := { s3 with last_appended_label := "" }
  let s5 := { s4 with last_append_time := (0 : ℚ) }
  let s6 := { s5 with last_committed_label := "" }
  let s7 := { s6 with hand_left_since_commit := true }
  (s7, (true, s7.typed_text))

/-- The inline ambiguity resolver shared by run_webcam_mode and the
predict route: with margin computed as confidence minus runner-up
confidence, a narrow send-over-separator read is replaced by the
separator read with a synthetic margin of 100. -/
def resolve (label : String) (confidence : ℚ)
    (second_label : String) (second_confidence : ℚ) :
    String × ℚ × ℚ :=
  let margin := confidence - second_confidence
  if label = SEND_TRIGGER_LABEL ∧ second_label = WORD_SEPARATOR_LABEL ∧
      margin < DONE_MIN_MARGIN then
    (WORD_SEPARATOR_LABEL, second_confidence, 100)
  else
    (label, confidence, margin)

/-- One MediaPipe hand landmark. -/
structure Landmark where
  x : ℚ
  y : ℚ
  z : ℚ
deriving DecidableEq, Repr

/-- The detector output predict_from_bgr consumes: a list of hands, each
a list of landmarks. -/
structure DetectionResult where
  hand_landmarks : List (List Landmark)
deriving DecidableEq, Repr

/-- The two tuple shapes predict_from_bgr can return: the 4-element early
returns and the full 7-element result. -/
inductive PredictReturn where
  | tuple4 (label : Option String) (confidence : ℚ) (hands : Nat)
      (landmarks : List Landmark)
  | tuple7 (label : Option String) (confidence : ℚ) (hands : Nat)
      (landmarks : List Landmark) (second_label : String)
      (second_confidence : ℚ) (margin : ℚ)
deriving DecidableEq, Repr

/-- Number of elements in the returned tuple. -/
def tupleArity : PredictReturn → Nat
  | .tuple4 _ _ _ _ => 4
  | .tuple7 _ _ _ _ _ _ _ => 7

/-- The landmark flattening loop of predict_from_bgr: x, y, z of each
landmark in order. -/
def extractLandmarks (h : List Landmark) : List ℚ :=
  h.foldr (fun lm acc => lm.x :: lm.y :: lm.z :: acc) []

/-- predict_from_bgr, with the neural network abstracted as a classify
function from the landmark vector to top and runner-up label and
confidence. Returns a 4-tuple when no hand is detected or the landmark
vector has the wrong length, a 7-tuple otherwise. -/
def predict_from_bgr (classify : List ℚ → String × ℚ × String × ℚ)
    (det : DetectionResult) : PredictReturn :=
  match det.hand_landmarks with
  | [] => .tuple4 none 0 0 []
  | h :: _ =>
    let landmarks := extractLandmarks h
    if landmarks.length ≠ EXPECTED_LEN then
      .tuple4 none 0 det.hand_landmarks.length h
    else
      let r := classify landmarks
      .tuple7 (some r.1) r.2.1 det.hand_landmarks.length h
        r.2.2.1 r.2.2.2 (r.2.1 - r.2.2.2)

/-- The 7-variable destructuring both callers perform on the result of
predict_from_bgr: succeeds only on a 7-tuple; a 4-tuple raises a Python
unpacking error, modelled as none. -/
def unpack7 : PredictReturn →
    Option (Option String × ℚ × Nat × List Landmark × String × ℚ × ℚ)
  | .tuple4 _ _ _ _ => none
  | .tuple7 a b c d e f g => some (a, b, c, d, e, f, g)

/-- One iteration of the run_webcam_mode loop from the predict_from_bgr
call to the state update, abstracting the drawing code: none models the
loop dying on an unpacking error before any state change. -/
def webcamProcessFrame (classify : List ℚ → String × ℚ × String × ℚ)
    (s : State) (det : DetectionResult) (now : ℚ)
    (dispatch : Except String String) : Option State :=
  match unpack7 (predict_from_bgr classify det) with
  | none => none
  | some (labelOpt, confidence, hands, _lms, second_label,
      second_confidence, margin) =>
    match labelOpt, decide (hands > 0) with
    | some l, true =>
      let r :=
        if l = SEND_TRIGGER_LABEL ∧ second_label = WORD_SEPARATOR_LABEL ∧
            margin < DONE_MIN_MARGIN then
          (WORD_SEPARATOR_LABEL, second_confidence, (100 : ℚ))
        else
          (l, confidence, margin)
      some (step s ⟨r.1, r.2.1, true, r.2.2, now, dispatch⟩)
    | _, _ => some (step s ⟨"", 0, false, 100, now, dispatch⟩)

/-- Python round with one decimal digit, as used on the response
confidence. -/
def round1 (q : ℚ) : ℚ := (round (q * 10) : ℚ) / 10

/-- The JSON body the predict route answers with. -/
structure PredictResponse where
  label : String
  confidence : ℚ
  hands_detected : Nat
  text_buffer : List Char
  post_result : Option PostResult
deriving DecidableEq, Repr

/-- The predict route of run_server_mode from the predict_from_bgr call
on a decoded frame to the state update and response: none models the
handler raising an unpacking error before any state change. -/
def predictRoute (classify : List ℚ → String × ℚ × String × ℚ)
    (s : State) (det : DetectionResult) (now : ℚ)
    (dispatch : Except String String) :
    Option (State × PredictResponse) :=
  match unpack7 (predict_from_bgr classify det) with
  | none => none
  | some (labelOpt0, confidence0, hands, _lms, second_label,
      second_confidence, margin0) =>
    let hand_detected : Bool := decide (hands > 0)
    let r :=
      if hand_detected = true ∧ labelOpt0 = some SEND_TRIGGER_LABEL ∧
          second_label = WORD_SEPARATOR_LABEL ∧ margin0 < DONE_MIN_MARGIN
          then
        (some WORD_SEPARATOR_LABEL, second_confidence, (100 : ℚ))
      else
        (labelOpt0, confidence0, margin0)
    match r.1, hand_detected with
    | some l, true =>
      let sr := update s ⟨l, r.2.1, true, r.2.2, now, dispatch⟩
      some (sr.1,
        { label := l
          confidence := round1 r.2.1
          hands_detected := hands
          text_buffer := sr.1.typed_text
          post_result := sr.2 })
    | labelOpt, _ =>
      let sr := update s ⟨"", 0, false, 100, now, dispatch⟩
      some (sr.1,
        { label := labelOpt.getD ""
          confidence := round1 r.2.1
          hands_detected := hands
          text_buffer := s.typed_text
          post_result := none })

/-- No frame of the list fires the send rule when the list is processed
in order from the given state. -/
def NoSendFire : State → List Frame → Prop
  | _, [] => True
  | s, g :: gs => ¬ SendFires s g ∧ NoSendFire (step s g) gs

/-- Every frame of the list, processed in order from the given state, is
hand-present, commits no label other than L, and arrives before the
append cooldown has elapsed since the running last_append_time. -/
def QuietTrace (L : String) : State → List Frame → Prop
  | _, [] => True
  | s, g :: gs =>
      g.hand = true ∧ (CommitFires s g → g.label = L) ∧
      g.now - s.last_append_time < APPEND_COOLDOWN_SECONDS ∧
      QuietTrace L (step s g) gs

/-- The buffer neither begins with a separator nor holds two consecutive
separators. -/
def SpacedOk (l : List Char) : Prop :=
  l.head? ≠ some ' ' ∧ l.Chain' (fun a b => ¬ (a = ' ' ∧ b = ' '))

instance (l : List Char) : Decidable (SpacedOk l) :=
  inferInstanceAs (Decidable (_ ∧ _))

/-! Helper lemmas about the shape of one update step. -/

theorem update_hand_false {s : State} {f : Frame} (h : f.hand = false) :
    update s f =
      ({ s with
          hand_left_since_commit := true
          last_predicted_label := ""
          stable_count := 0 }, none) := by
  simp [update, h]

theorem update_hand_true {s : State} {f : Frame} (h : f.hand = true) :
    update s f =
      (appendBlock (sepBlock (sendBlock (stabilize s f) f).1 f).1 f,
        match (sepBlock (sendBlock (stabilize s f) f).1 f).2 with
        | some r => some r
        | none => (sendBlock (stabilize s f) f).2) := by
  simp [update, h]

theorem sendBlock_neg {s : State} {f : Frame} (h : ¬ SendCond s f) :
    sendBlock s f = (s, none) := by
  simp [sendBlock, h]

theorem sendBlock_pos_empty {s : State} {f : Frame} (h : SendCond s f)
    (he : pyStrip s.typed_text = []) :
    sendBlock s f =
      ({ s with
          last_send_time := f.now
          last_committed_label := f.label
          hand_left_since_commit := false }, none) := by
  simp [sendBlock, h, he]

theorem sendBlock_pos_fail {s : State} {f : Frame} {e : String}
    (h : SendCond s f) (hne : pyStrip s.typed_text ≠ [])
    (hd : f.dispatch = .error e) :
    sendBlock s f =
      ({ s with
          last_send_time := f.now
          last_committed_label := f.label
          hand_left_since_commit := false },
        some (.sendFail e (pyStrip s.typed_text))) := by
  simp [sendBlock, h, hne, hd]

theorem sendBlock_pos_ok {s : State} {f : Frame} {url : String}
    (h : SendCond s f) (hne : pyStrip s.typed_text ≠ [])
    (hd : f.dispatch = .ok url) :
    sendBlock s f =
      ({ s with
          typed_text := []
          last_send_time := f.now
          last_committed_label := f.label
          hand_left_since_commit := false },
        some (.sendOk url (pyStrip s.typed_text))) := by
  simp [sendBlock, h, hne, hd]

theorem sepBlock_neg {s : State} {f : Frame} (h : ¬ SepCond s f) :
    sepBlock s f = (s, none) := by
  simp [sepBlock, h]

theorem sepBlock_pos {s : State} {f : Frame} (h : SepCond s f) :
    sepBlock s f =
      ({ s with
          typed_text := s.typed_text ++ [' ']
          last_appended_label := f.label
          last_append_time := f.now
          last_committed_label := f.label
          hand_left_since_commit := false },
        some (.space (s.typed_text ++ [' ']))) := by
  simp [sepBlock, h]

theorem appendBlock_neg {s : State} {f : Frame} (h : ¬ AppendCond s f) :
    appendBlock s f = s := by
  simp [appendBlock, h]

theorem appendBlock_pos {s : State} {f : Frame} (h : AppendCond s f) :
    appendBlock s f =
      { s with
          typed_text := s.typed_text ++ f.label.data
          last_appended_label := f.label
          last_append_time := f.now
          last_committed_label := f.label
          hand_left_since_commit := false } := by
  simp [appendBlock, h]

/-! Label facts: the three rule guards pin the frame label, and the send
and separator labels differ. -/

theorem send_ne_sep : SEND_TRIGGER_LABEL ≠ WORD_SEPARATOR_LABEL := by
  decide

theorem sepBlock_send_label {s : State} {f : Frame}
    (h : f.label = SEND_TRIGGER_LABEL) : sepBlock s f = (s, none) :=
  sepBlock_neg (fun hc => send_ne_sep (by rw [← h, hc.1]))

theorem appendBlock_send_label {s : State} {f : Frame}
    (h : f.label = SEND_TRIGGER_LABEL) : appendBlock s f = s :=
  appendBlock_neg (fun hc => hc.1 h)

theorem sendBlock_sep_label {s : State} {f : Frame}
    (h : f.label = WORD_SEPARATOR_LABEL) : sendBlock s f = (s, none) :=
  sendBlock_neg (fun hc => send_ne_sep (by rw [← hc.1, h]))

theorem appendBlock_sep_label {s : State} {f : Frame}
    (h : f.label = WORD_SEPARATOR_LABEL) : appendBlock s f = s :=
  appendBlock_neg (fun hc => hc.2.1 h)

theorem sendBlock_other_label {s : State} {f : Frame}
    (h : f.label ≠ SEND_TRIGGER_LABEL) : sendBlock s f = (s, none) :=
  sendBlock_neg (fun hc => h hc.1)

theorem sepBlock_other_label {s : State} {f : Frame}
    (h : f.label ≠ WORD_SEPARATOR_LABEL) : sepBlock s f = (s, none) :=
  sepBlock_neg (fun hc => h hc.1)

/-! Fields each stage leaves untouched. -/

@[simp] theorem stabilize_typed_text (s : State) (f : Frame) :
    (stabilize s f).typed_text = s.typed_text := by
  unfold stabilize; split <;> rfl

@[simp] theorem stabilize_last_appended_label (s : State) (f : Frame) :
    (stabilize s f).last_appended_label = s.last_appended_label := by
  unfold stabilize; split <;> rfl

@[simp] theorem stabilize_last_append_time (s : State) (f : Frame) :
    (stabilize s f).last_append_time = s.last_append_time := by
  unfold stabilize; split <;> rfl

@[simp] theorem stabilize_last_send_time (s : State) (f : Frame) :
    (stabilize s f).last_send_time = s.last_send_time := by
  unfold stabilize; split <;> rfl

@[simp] theorem stabilize_last_committed_label (s : State) (f : Frame) :
    (stabilize s f).last_committed_label = s.last_committed_label := by
  unfold stabilize; split <;> rfl

@[simp] theorem stabilize_hand_left (s : State) (f : Frame) :
    (stabilize s f).hand_left_since_commit = s.hand_left_since_commit := by
  unfold stabilize; split <;> rfl

@[simp] theorem sendBlock_stable_count (s : State) (f : Frame) :
    (sendBlock s f).1.stable_count = s.stable_count := by
  unfold sendBlock
  split
  · dsimp only
    split
    · cases f.dispatch <;> rfl
    · rfl
  · rfl

@[simp] theorem sendBlock_last_predicted (s : State) (f : Frame) :
    (sendBlock s f).1.last_predicted_label = s.last_predicted_label := by
  unfold sendBlock
  split
  · dsimp only
    split
    · cases f.dispatch <;> rfl
    · rfl
  · rfl

@[simp] theorem sendBlock_last_append_time (s : State) (f : Frame) :
    (sendBlock s f).1.last_append_time = s.last_append_time := by
  unfold sendBlock
  split
  · dsimp only
    split
    · cases f.dispatch <;> rfl
    · rfl
  · rfl

@[simp] theorem sendBlock_last_appended_label (s : State) (f : Frame) :
    (sendBlock s f).1.last_appended_label = s.last_appended_label := by
  unfold sendBlock
  split
  · dsimp only
    split
    · cases f.dispatch <;> rfl
    · rfl
  · rfl

@[simp] theorem sepBlock_stable_count (s : State) (f : Frame) :
    (sepBlock s f).1.stable_count = s.stable_count := by
  unfold sepBlock; split <;> rfl

@[simp] theorem sepBlock_last_predicted (s : State) (f : Frame) :
    (sepBlock s f).1.last_predicted_label = s.last_predicted_label := by
  unfold sepBlock; split <;> rfl

@[simp] theorem sepBlock_last_send_time (s : State) (f : Frame) :
    (sepBlock s f).1.last_send_time = s.last_send_time := by
  unfold sepBlock; split <;> rfl

@[simp] theorem appendBlock_stable_count (s : State) (f : Frame) :
    (appendBlock s f).stable_count = s.stable_count := by
  unfold appendBlock; split <;> rfl

@[simp] theorem appendBlock_last_predicted (s : State) (f : Frame) :
    (appendBlock s f).last_predicted_label = s.last_predicted_label := by
  unfold appendBlock; split <;> rfl

@[simp] theorem appendBlock_last_send_time (s : State) (f : Frame) :
    (appendBlock s f).last_send_time = s.last_send_time := by
  unfold appendBlock; split <;> rfl

theorem hand_false_of_not {f : Frame} (h : ¬ f.hand = true) :
    f.hand = false := by
  cases hb : f.hand
  · rfl
  · exact absurd hb h

theorem run_nil (s : State) : run s [] = s := rfl

theorem run_cons (s : State) (f : Frame) (fs : List Frame) :
    run s (f :: fs) = run (step s f) fs := rfl

/-- With a hand present, the commit rules leave the streak fields as the
stabilization step set them. -/
theorem step_stab_fields {s : State} {f : Frame} (h : f.hand = true) :
    (step s f).stable_count = (stabilize s f).stable_count ∧
    (step s f).last_predicted_label =
      (stabilize s f).last_predicted_label := by
  rw [step, update_hand_true h]
  constructor <;> simp

/-- A hand-present frame whose label differs from the running one
restarts the streak at one. -/
theorem step_label_change {s : State} {f : Frame} (hh : f.hand = true)
    (hne : f.label ≠ s.last_predicted_label) :
    (step s f).stable_count = 1 ∧
    (step s f).last_predicted_label = f.label := by
  obtain ⟨h1, h2⟩ := step_stab_fields hh
  have hstab : stabilize s f =
      { s with last_predicted_label := f.label, stable_count := 1 } := by
    unfold stabilize; rw [if_neg hne]
  rw [h1, h2, hstab]
  exact ⟨rfl, rfl⟩

/-- Processing hand-present frames that keep carrying the running label
adds their number to the streak. -/
theorem run_same_label {L : String} : ∀ (fs : List Frame) (s : State),
    (∀ f ∈ fs, f.hand = true ∧ f.label = L) →
    s.last_predicted_label = L →
    (run s fs).stable_count = s.stable_count + fs.length ∧
    (run s fs).last_predicted_label = L := by
  intro fs
  induction fs with
  | nil =>
    intro s _ hlab
    simpa [run_nil] using hlab
  | cons f fs ih =>
    intro s hall hlab
    obtain ⟨hh, hl⟩ := hall f (List.mem_cons_self f fs)
    have hstab : stabilize s f = { s with stable_count := s.stable_count + 1 } := by
      unfold stabilize; rw [if_pos (by rw [hl, hlab])]
    obtain ⟨h1, h2⟩ := step_stab_fields hh
    have hsc : (step s f).stable_count = s.stable_count + 1 := by
      rw [h1, hstab]
    have hlp : (step s f).last_predicted_label = L := by
      rw [h2, hstab]; exact hlab
    obtain ⟨ih1, ih2⟩ :=
      ih (step s f) (fun g hg => hall g (List.mem_cons_of_mem f hg)) hlp
    refine ⟨?_, ih2⟩
    rw [run_cons, ih1, hsc, List.length_cons]
    omega

/-- C3: a hand-absent frame zeroes the streak, clears the running label
and marks the hand as having left; a hand-present frame with a new label
restarts the streak at one; and from a state not already carrying label
L, any non-empty sequence of hand-present frames labelled L leaves the
streak equal to the length of the sequence. -/
theorem c3_stabilization :
    (∀ (s : State) (f : Frame), f.hand = false →
      (step s f).stable_count = 0 ∧
      (step s f).last_predicted_label = "" ∧
      (step s f).hand_left_since_commit = true) ∧
    (∀ (s : State) (f : Frame), f.hand = true →
      f.label ≠ s.last_predicted_label →
      (step s f).stable_count = 1 ∧
      (step s f).last_predicted_label = f.label) ∧
    (∀ (s : State) (L : String) (fs : List Frame), fs ≠ [] →
      s.last_predicted_label ≠ L →
      (∀ f ∈ fs, f.hand = true ∧ f.label = L) →
      (run s fs).stable_count = fs.length) := by
  refine ⟨?_, ?_, ?_⟩
  · intro s f h
    rw [step, update_hand_false h]
    exact ⟨rfl, rfl, rfl⟩
  · intro s f hh hne
    exact step_label_change hh hne
  · intro s L fs hne hlab hall
    cases fs with
    | nil => exact absurd rfl hne
    | cons f fs =>
      obtain ⟨hh, hl⟩ := hall f (List.mem_cons_self f fs)
      have hne2 : f.label ≠ s.last_predicted_label := by
        rw [hl]; exact fun hc => hlab hc.symm
      obtain ⟨hsc, hlp⟩ := step_label_change hh hne2
      obtain ⟨ih1, -⟩ :=
        run_same_label fs (step s f)
          (fun g hg => hall g (List.mem_cons_of_mem f hg))
          (by rw [hlp, hl])
      rw [run_cons, ih1, hsc, List.length_cons]
      omega

/-- Witness for C3: a hand-absent frame resets a fresh state, a first
frame labelled a restarts the streak at one, and two consecutive frames
labelled a leave the streak at two. -/
theorem c3_stabilization_witness :
    ((step initState ⟨"", 0, false, 100, 0, Except.ok ""⟩).stable_count = 0 ∧
      (step initState ⟨"", 0, false, 100, 0, Except.ok ""⟩).last_predicted_label = "" ∧
      (step initState ⟨"", 0, false, 100, 0, Except.ok ""⟩).hand_left_since_commit = true) ∧
    ((step initState ⟨"a", 90, true, 100, 1, Except.ok ""⟩).stable_count = 1 ∧
      (step initState ⟨"a", 90, true, 100, 1, Except.ok ""⟩).last_predicted_label = "a") ∧
    (run initState
      [⟨"a", 90, true, 100, 1, Except.ok ""⟩,
       ⟨"a", 90, true, 100, 2, Except.ok ""⟩]).stable_count = 2 :=
  ⟨c3_stabilization.1 initState ⟨"", 0, false, 100, 0, Except.ok ""⟩ rfl,
   c3_stabilization.2.1 initState ⟨"a", 90, true, 100, 1, Except.ok ""⟩ rfl
     (by decide),
   c3_stabilization.2.2 initState "a"
     [⟨"a", 90, true, 100, 1, Except.ok ""⟩,
      ⟨"a", 90, true, 100, 2, Except.ok ""⟩]
     (by simp) (by decide) (by decide)⟩

/-- C7: at most one of the three commit rules fires on any single frame,
with each guard read at the point update evaluates it. -/
theorem c7_at_most_one_rule (s : State) (f : Frame) :
    (decide (SendFires s f)).toNat + (decide (SepFires s f)).toNat +
      (decide (AppendFires s f)).toNat ≤ 1 := by
  by_cases h1 : SendFires s f
  · have hl : f.label = SEND_TRIGGER_LABEL := h1.2.1
    have h2 : ¬ SepFires s f := fun hc => send_ne_sep (by rw [← hl, hc.2.1])
    have h3 : ¬ AppendFires s f := fun hc => hc.2.1 hl
    simp [h1, h2, h3]
  · by_cases h2 : SepFires s f
    · have hl : f.label = WORD_SEPARATOR_LABEL := h2.2.1
      have h3 : ¬ AppendFires s f := fun hc => hc.2.2.1 hl
      simp [h1, h2, h3]
    · by_cases h3 : AppendFires s f <;> simp [h1, h2, h3]

/-- C4: if the top label is the send label, the runner-up is the
separator label, and confidence minus runner-up confidence is strictly
below DONE_MIN_MARGIN, the resolver returns the separator label, the
runner-up confidence and a synthetic margin of 100; in every other case
it returns the inputs with margin equal to confidence minus runner-up
confidence. -/
theorem c4_ambiguity_resolver (l : String) (c : ℚ) (sl : String) (sc : ℚ) :
    (l = SEND_TRIGGER_LABEL ∧ sl = WORD_SEPARATOR_LABEL ∧
        c - sc < DONE_MIN_MARGIN →
      resolve l c sl sc = (WORD_SEPARATOR_LABEL, sc, 100)) ∧
    (¬ (l = SEND_TRIGGER_LABEL ∧ sl = WORD_SEPARATOR_LABEL ∧
        c - sc < DONE_MIN_MARGIN) →
      resolve l c sl sc = (l, c, c - sc)) := by
  constructor <;> intro h <;> simp [resolve, h]

/-- Witness for C4: both branches of the resolver at concrete inputs,
with margin 5 below the threshold 12 and margin 15 above it. -/
theorem c4_ambiguity_resolver_witness :
    resolve "done" 80 "ok" 75 = (WORD_SEPARATOR_LABEL, 75, 100) ∧
    resolve "done" 90 "ok" 75 = ("done", 90, 90 - 75) := by
  constructor
  · exact (c4_ambiguity_resolver "done" 80 "ok" 75).1
      (by norm_num [SEND_TRIGGER_LABEL, WORD_SEPARATOR_LABEL,
        DONE_MIN_MARGIN])
  · exact (c4_ambiguity_resolver "done" 90 "ok" 75).2
      (by norm_num [SEND_TRIGGER_LABEL, WORD_SEPARATOR_LABEL,
        DONE_MIN_MARGIN])

/-- C8: on an unambiguous input, margin at least DONE_MIN_MARGIN, or a
top/runner-up pair other than send/separator, the resolver returns the
inputs unchanged, and applying it to its own output changes nothing. -/
theorem c8_resolve_idempotent (l : String) (c : ℚ) (sl : String) (sc : ℚ)
    (h : c - sc ≥ DONE_MIN_MARGIN ∨
      ¬ (l = SEND_TRIGGER_LABEL ∧ sl = WORD_SEPARATOR_LABEL)) :
    resolve l c sl sc = (l, c, c - sc) ∧
    resolve (resolve l c sl sc).1 (resolve l c sl sc).2.1 sl sc =
      resolve l c sl sc := by
  have hneg : ¬ (l = SEND_TRIGGER_LABEL ∧ sl = WORD_SEPARATOR_LABEL ∧
      c - sc < DONE_MIN_MARGIN) := by
    rcases h with h | h
    · rintro ⟨-, -, hlt⟩
      exact absurd hlt (not_lt.mpr h)
    · rintro ⟨h1, h2, -⟩
      exact h ⟨h1, h2⟩
  have h1 : resolve l c sl sc = (l, c, c - sc) := by
    simp [resolve, hneg]
  refine ⟨h1, ?_⟩
  rw [h1]
  exact h1

/-- Witness for C8: idempotence at a concrete unambiguous input. -/
theorem c8_resolve_idempotent_witness :
    resolve "a" 90 "b" 10 = ("a", 90, 90 - 10) ∧
    resolve (resolve "a" 90 "b" 10).1 (resolve "a" 90 "b" 10).2.1 "b" 10 =
      resolve "a" 90 "b" 10 :=
  c8_resolve_idempotent "a" 90 "b" 10 (Or.inr (by decide))

unseal Rat.sub in
/-- C2 is false on the code: clear_buffer does not reset last_send_time.
Concretely, a send-rule frame at time 5 on a fresh state leaves
last_send_time at 5, and clear_buffer keeps it at 5 while the initial
value is 0. -/
theorem c2_counterexample :
    initState.last_send_time = 0 ∧
    (clear_buffer (step initState
        ⟨"done", 100, true, 100, 5, Except.ok "u"⟩)).1.last_send_time = 5 := by
  decide

/-- C2 amended: clear_buffer resets text_buffer, last_predicted_label,
stable_count, last_appended_label, last_append_time,
last_committed_label and hand_left_since_commit to their initial values,
preserves last_send_time, and returns success with the empty buffer. -/
theorem c2_clear_buffer_amended (s : State) :
    clear_buffer s =
      ({ initState with last_send_time := s.last_send_time },
        (true, [])) := rfl

/-- C9: on a detection with no hand landmarks, and on one whose
flattened landmark vector has the wrong length, predict_from_bgr returns
a 4-element tuple; the 7-variable destructuring in the webcam loop and
the predict route therefore fails, so neither caller reaches the
hand-absent reset path of update. -/
theorem c9_unpack_arity_mismatch :
    (∀ (classify : List ℚ → String × ℚ × String × ℚ) (s : State)
        (now : ℚ) (d : Except String String),
      tupleArity (predict_from_bgr classify ⟨[]⟩) = 4 ∧
      unpack7 (predict_from_bgr classify ⟨[]⟩) = none ∧
      webcamProcessFrame classify s ⟨[]⟩ now d = none ∧
      predictRoute classify s ⟨[]⟩ now d = none) ∧
    (∀ (classify : List ℚ → String × ℚ × String × ℚ) (s : State)
        (now : ℚ) (d : Except String String)
        (h : List Landmark) (rest : List (List Landmark)),
      (extractLandmarks h).length ≠ EXPECTED_LEN →
      tupleArity (predict_from_bgr classify ⟨h :: rest⟩) = 4 ∧
      unpack7 (predict_from_bgr classify ⟨h :: rest⟩) = none ∧
      webcamProcessFrame classify s ⟨h :: rest⟩ now d = none ∧
      predictRoute classify s ⟨h :: rest⟩ now d = none) := by
  constructor
  · intro classify s now d
    exact ⟨rfl, rfl, rfl, rfl⟩
  · intro classify s now d h rest hlen
    have hp : predict_from_bgr classify ⟨h :: rest⟩ =
        .tuple4 none 0 (h :: rest).length h := by
      simp [predict_from_bgr, hlen]
    refine ⟨?_, ?_, ?_, ?_⟩ <;>
      simp [hp, webcamProcessFrame, predictRoute, unpack7, tupleArity]

/-- Witness for C9: a concrete one-hand detection with an empty landmark
list has vector length 0, not 63, and both modelled callers fail. -/
theorem c9_unpack_arity_mismatch_witness :
    (extractLandmarks []).length ≠ EXPECTED_LEN ∧
    unpack7 (predict_from_bgr (fun _ => ("a", 1, "b", 0)) ⟨[[]]⟩) =
      none ∧
    webcamProcessFrame (fun _ => ("a", 1, "b", 0)) initState ⟨[]⟩ 0
      (Except.ok "") = none := by
  refine ⟨by decide, ?_, ?_⟩
  · exact ((c9_unpack_arity_mismatch.2 (fun _ => ("a", 1, "b", 0))
      initState 0 (Except.ok "") [] []) (by decide)).2.1
  · exact (c9_unpack_arity_mismatch.1 (fun _ => ("a", 1, "b", 0))
      initState 0 (Except.ok "")).2.2.1

/-! Helper lemmas about last_send_time and buffer growth. -/

theorem step_last_send_time {s : State} {f : Frame}
    (h : ¬ SendFires s f) :
    (step s f).last_send_time = s.last_send_time := by
  by_cases hh : f.hand = true
  · have hsc : ¬ SendCond (stabilize s f) f := fun hc => h ⟨hh, hc⟩
    rw [step, update_hand_true hh]
    simp [sendBlock_neg hsc]
  · rw [step, update_hand_false (hand_false_of_not hh)]

theorem step_last_send_time_fire {s : State} {f : Frame}
    (h : SendFires s f) :
    (step s f).last_send_time = f.now := by
  rw [step, update_hand_true h.1]
  simp only [Prod.fst, appendBlock_last_send_time, sepBlock_last_send_time]
  have hc := h.2
  unfold sendBlock
  rw [if_pos hc]

theorem sepBlock_typed_extends (s : State) (f : Frame) :
    ∃ u, (sepBlock s f).1.typed_text = s.typed_text ++ u := by
  unfold sepBlock
  split
  · exact ⟨[' '], rfl⟩
  · exact ⟨[], by simp⟩

theorem appendBlock_typed_extends (s : State) (f : Frame) :
    ∃ u, (appendBlock s f).typed_text = s.typed_text ++ u := by
  unfold appendBlock
  split
  · exact ⟨f.label.data, rfl⟩
  · exact ⟨[], by simp⟩

theorem step_typed_extends {s : State} {f : Frame}
    (h : ¬ SendFires s f) :
    ∃ u, (step s f).typed_text = s.typed_text ++ u := by
  by_cases hh : f.hand = true
  · have hsc : ¬ SendCond (stabilize s f) f := fun hc => h ⟨hh, hc⟩
    rw [step, update_hand_true hh]
    dsimp only
    rw [sendBlock_neg hsc]
    dsimp only
    obtain ⟨u1, h1⟩ := sepBlock_typed_extends (stabilize s f) f
    obtain ⟨u2, h2⟩ := appendBlock_typed_extends (sepBlock (stabilize s f) f).1 f
    refine ⟨u1 ++ u2, ?_⟩
    rw [h2, h1, stabilize_typed_text, List.append_assoc]
  · rw [step, update_hand_false (hand_false_of_not hh)]
    exact ⟨[], by simp⟩

/-- Inside a send cooldown window no send fires, last_send_time stays
put, and the buffer only ever grows. -/
theorem no_send_window {T : ℚ} : ∀ (fs : List Frame) (s : State),
    s.last_send_time = T →
    (∀ g ∈ fs, g.now < T + SEND_COOLDOWN_SECONDS) →
    NoSendFire s fs ∧ (run s fs).last_send_time = T ∧
    ∃ u, (run s fs).typed_text = s.typed_text ++ u := by
  intro fs
  induction fs with
  | nil =>
    intro s hT _
    exact ⟨trivial, hT, [], by simp [run_nil]⟩
  | cons g gs ih =>
    intro s hT hw
    have hg : g.now < T + SEND_COOLDOWN_SECONDS :=
      hw g (List.mem_cons_self g gs)
    have hnofire : ¬ SendFires s g := by
      rintro ⟨hh, hc⟩
      have hcool := hc.2.2.2.2
      rw [stabilize_last_send_time, hT] at hcool
      linarith
    have hpres : (step s g).last_send_time = T := by
      rw [step_last_send_time hnofire, hT]
    obtain ⟨hns, hT2, u, hu⟩ :=
      ih (step s g) hpres (fun h hm => hw h (List.mem_cons_of_mem g hm))
    obtain ⟨v, hv⟩ := step_typed_extends hnofire
    refine ⟨⟨hnofire, hns⟩, ?_, v ++ u, ?_⟩
    · rw [run_cons]; exact hT2
    · rw [run_cons, hu, hv, List.append_assoc]

/-- C1: on a frame where the send rule fires with a non-empty trimmed
buffer, the buffer is cleared if and only if the dispatch call succeeds,
and on a dispatch error the buffer is exactly the pre-frame string and a
failure event is returned. -/
theorem c1_send_clears_iff_dispatch (s : State) (f : Frame)
    (hh : f.hand = true) (hc : SendCond (stabilize s f) f)
    (ht : pyStrip s.typed_text ≠ []) :
    ((step s f).typed_text = [] ↔ ∃ url, f.dispatch = .ok url) ∧
    (∀ e, f.dispatch = .error e →
      (step s f).typed_text = s.typed_text ∧
      (update s f).2 = some (.sendFail e (pyStrip s.typed_text))) := by
  have hl : f.label = SEND_TRIGGER_LABEL := hc.1
  have hstrip : pyStrip (stabilize s f).typed_text ≠ [] := by
    rw [stabilize_typed_text]; exact ht
  cases hd : f.dispatch with
  | ok url =>
    have h1 : (step s f).typed_text = [] := by
      rw [step, update_hand_true hh]
      simp [sendBlock_pos_ok hc hstrip hd, sepBlock_send_label hl,
        appendBlock_send_label hl]
    refine ⟨⟨fun _ => ⟨url, rfl⟩, fun _ => h1⟩, ?_⟩
    intro e he
    cases he
  | error e0 =>
    have h1 : (step s f).typed_text = s.typed_text := by
      rw [step, update_hand_true hh]
      simp [sendBlock_pos_fail hc hstrip hd, sepBlock_send_label hl,
        appendBlock_send_label hl]
    have h2 : (update s f).2 = some (.sendFail e0 (pyStrip s.typed_text)) := by
      rw [update_hand_true hh]
      simp [sendBlock_pos_fail hc hstrip hd, sepBlock_send_label hl]
    refine ⟨⟨?_, ?_⟩, ?_⟩
    · intro hempty
      rw [h1] at hempty
      exact absurd (by rw [hempty]; rfl) ht
    · rintro ⟨url, hu⟩
      cases hu
    · intro e he
      injection he with he2
      subst he2
      exact ⟨h1, h2⟩

unseal Rat.sub in
/-- Witness for C1: a send frame with a failing dispatch on a buffer
holding hi keeps the buffer and reports the failure. -/
theorem c1_send_clears_iff_dispatch_witness :
    ((step { initState with typed_text := ['h', 'i'] }
        ⟨"done", 100, true, 100, 5, Except.error "boom"⟩).typed_text = []
      ↔ ∃ url, (Except.error "boom" : Except String String) = .ok url) ∧
    (∀ e, (Except.error "boom" : Except String String) = .error e →
      (step { initState with typed_text := ['h', 'i'] }
        ⟨"done", 100, true, 100, 5, Except.error "boom"⟩).typed_text =
        ['h', 'i'] ∧
      (update { initState with typed_text := ['h', 'i'] }
        ⟨"done", 100, true, 100, 5, Except.error "boom"⟩).2 =
        some (.sendFail e (pyStrip ['h', 'i']))) :=
  c1_send_clears_iff_dispatch
    { initState with typed_text := ['h', 'i'] }
    ⟨"done", 100, true, 100, 5, Except.error "boom"⟩
    rfl (by decide) (by decide)

/-- C6: after the send rule fires at time t, no send fires on any frame
whose time is before t plus SEND_COOLDOWN_SECONDS, and during that
window the buffer is never cleared, only extended. -/
theorem c6_send_cooldown (s : State) (f : Frame) (fs : List Frame)
    (hf : SendFires s f)
    (hw : ∀ g ∈ fs, g.now < f.now + SEND_COOLDOWN_SECONDS) :
    NoSendFire (step s f) fs ∧
    ∃ u, (run (step s f) fs).typed_text = (step s f).typed_text ++ u := by
  have hT : (step s f).last_send_time = f.now := step_last_send_time_fire hf
  obtain ⟨h1, -, h3⟩ := no_send_window fs (step s f) hT hw
  exact ⟨h1, h3⟩

unseal Rat.sub in
/-- Witness for C6: a send that fired at time 10 suppresses a second
full-strength send frame arriving half a second later. -/
theorem c6_send_cooldown_witness :
    NoSendFire
      (step { initState with typed_text := ['h', 'i'] }
        ⟨"done", 96, true, 20, 10, Except.ok "u"⟩)
      [⟨"done", 96, true, 20, 21/2, Except.ok "u"⟩] ∧
    ∃ u,
      (run
        (step { initState with typed_text := ['h', 'i'] }
          ⟨"done", 96, true, 20, 10, Except.ok "u"⟩)
        [⟨"done", 96, true, 20, 21/2, Except.ok "u"⟩]).typed_text =
      (step { initState with typed_text := ['h', 'i'] }
        ⟨"done", 96, true, 20, 10, Except.ok "u"⟩).typed_text ++ u :=
  c6_send_cooldown { initState with typed_text := ['h', 'i'] }
    ⟨"done", 96, true, 20, 10, Except.ok "u"⟩
    [⟨"done", 96, true, 20, 21/2, Except.ok "u"⟩]
    (by decide) (by intro g hg; fin_cases hg; norm_num [SEND_COOLDOWN_SECONDS])

/-! Helper lemmas about the anti-duplicate commit guards. -/

theorem sendBlock_pos_commit {s : State} {f : Frame} (h : SendCond s f) :
    (sendBlock s f).1.hand_left_since_commit = false ∧
    (sendBlock s f).1.last_committed_label = f.label := by
  unfold sendBlock
  rw [if_pos h]
  exact ⟨rfl, rfl⟩

/-- A hand-present frame that commits nothing but L keeps the state in
the committed-L, hand-not-left configuration. -/
theorem step_commit_fields {L : String} {s : State} {f : Frame}
    (hh : f.hand = true) (hq : CommitFires s f → f.label = L)
    (h1 : s.hand_left_since_commit = false)
    (h2 : s.last_committed_label = L) :
    (step s f).hand_left_since_commit = false ∧
    (step s f).last_committed_label = L := by
  rw [step, update_hand_true hh]
  dsimp only
  by_cases hC : AppendCond (sepBlock (sendBlock (stabilize s f) f).1 f).1 f
  · have hl : f.label = L := hq (Or.inr (Or.inr ⟨hh, hC⟩))
    rw [appendBlock_pos hC]
    exact ⟨rfl, hl⟩
  · rw [appendBlock_neg hC]
    by_cases hB : SepCond (sendBlock (stabilize s f) f).1 f
    · have hl : f.label = L := hq (Or.inr (Or.inl ⟨hh, hB⟩))
      rw [sepBlock_pos hB]
      exact ⟨rfl, hl⟩
    · rw [sepBlock_neg hB]
      dsimp only
      by_cases hA : SendCond (stabilize s f) f
      · have hl : f.label = L := hq (Or.inl ⟨hh, hA⟩)
        obtain ⟨p1, p2⟩ := sendBlock_pos_commit hA
        exact ⟨p1, by rw [p2, hl]⟩
      · rw [sendBlock_neg hA]
        dsimp only
        rw [stabilize_hand_left, stabilize_last_committed_label]
        exact ⟨h1, h2⟩

theorem quiet_trace_commit {L : String} : ∀ (fs : List Frame) (s : State),
    s.hand_left_since_commit = false → s.last_committed_label = L →
    QuietTrace L s fs →
    (run s fs).hand_left_since_commit = false ∧
    (run s fs).last_committed_label = L := by
  intro fs
  induction fs with
  | nil =>
    intro s h1 h2 _
    exact ⟨h1, h2⟩
  | cons g gs ih =>
    intro s h1 h2 hq
    obtain ⟨hh, hcommit, -, hrest⟩ := hq
    obtain ⟨h1g, h2g⟩ := step_commit_fields hh hcommit h1 h2
    rw [run_cons]
    exact ih (step s g) h1g h2g hrest

theorem appendFires_post {s : State} {f : Frame} (h : AppendFires s f) :
    (step s f).hand_left_since_commit = false ∧
    (step s f).last_committed_label = f.label := by
  rw [step, update_hand_true h.1]
  dsimp only
  rw [appendBlock_pos h.2]
  exact ⟨rfl, rfl⟩

/-- With the hand never gone since a commit of this very label, the
append guard cannot pass, whatever the cooldown says. -/
theorem no_append_refire {s : State} {f : Frame}
    (h1 : s.hand_left_since_commit = false)
    (h2 : s.last_committed_label = f.label) :
    ¬ AppendFires s f := by
  rintro ⟨hh, hc⟩
  rw [sendBlock_other_label hc.1] at hc
  dsimp only at hc
  rw [sepBlock_other_label hc.2.1] at hc
  dsimp only at hc
  rcases hc.2.2.2.2.1 with h5 | h5
  · rw [stabilize_hand_left, h1] at h5
    cases h5
  · exact h5 (by rw [stabilize_last_committed_label, h2])

/-- C5: once the append rule has fired for label L, it cannot fire again
for L while every intervening frame keeps the hand present, commits no
other label, and arrives inside the append cooldown, and the second
frame itself still arrives inside the cooldown: a continuously held
gesture cannot produce two identical consecutive appends. -/
theorem c5_no_double_append (s : State) (f1 : Frame) (fs : List Frame)
    (f2 : Frame) (L : String)
    (hL1 : f1.label = L) (hfire : AppendFires s f1)
    (hq : QuietTrace L (step s f1) fs)
    (hL2 : f2.label = L)
    (_hcool : f2.now - (run (step s f1) fs).last_append_time <
      APPEND_COOLDOWN_SECONDS) :
    ¬ AppendFires (run (step s f1) fs) f2 := by
  obtain ⟨p1, p2⟩ := appendFires_post hfire
  obtain ⟨q1, q2⟩ := quiet_trace_commit fs (step s f1) p1 (by rw [p2, hL1]) hq
  exact no_append_refire q1 (by rw [q2, hL2])

unseal Rat.sub Rat.mul Rat.inv Rat.add in
/-- Witness for C5: after an append of the label a at time 1, an
identical full-strength frame at the same instant does not append
again. -/
theorem c5_no_double_append_witness :
    ¬ AppendFires
      (run (step { initState with last_predicted_label := "a", stable_count := 1 }
        ⟨"a", 90, true, 100, 1, Except.ok ""⟩) [])
      ⟨"a", 90, true, 100, 1, Except.ok ""⟩ :=
  c5_no_double_append
    { initState with last_predicted_label := "a", stable_count := 1 }
    ⟨"a", 90, true, 100, 1, Except.ok ""⟩ []
    ⟨"a", 90, true, 100, 1, Except.ok ""⟩ "a"
    rfl (by decide) trivial rfl (by decide)

/-! Helper lemmas about buffer spacing. -/

theorem sendBlock_typed_cases (s : State) (f : Frame) :
    (sendBlock s f).1.typed_text = s.typed_text ∨
    (sendBlock s f).1.typed_text = [] := by
  unfold sendBlock
  split
  · dsimp only
    split
    · cases f.dispatch
      · left; rfl
      · right; rfl
    · left; rfl
  · left; rfl

theorem spacedOk_nil : SpacedOk [] := ⟨by simp, List.chain'_nil⟩

theorem chain'_of_no_space {u : List Char} (hu : ∀ c ∈ u, c ≠ ' ') :
    u.Chain' (fun a b => ¬ (a = ' ' ∧ b = ' ')) := by
  induction u with
  | nil => exact List.chain'_nil
  | cons a u ih =>
    rw [List.chain'_cons']
    refine ⟨?_, ih (fun c hc => hu c (List.mem_cons_of_mem a hc))⟩
    rintro y hy ⟨-, hy2⟩
    exact hu y (List.mem_cons_of_mem a (List.mem_of_mem_head? hy)) hy2

theorem spacedOk_append_nospace {t u : List Char} (ht : SpacedOk t)
    (hu : ∀ c ∈ u, c ≠ ' ') : SpacedOk (t ++ u) := by
  constructor
  · rw [List.head?_append]
    cases htl : t.head? with
    | none =>
      cases hul : u.head? with
      | none => simp [Option.or]
      | some c =>
        have : c ≠ ' ' := hu c (List.mem_of_mem_head? (by rw [hul]; rfl))
        simpa [Option.or] using this
    | some a =>
      have : a ≠ ' ' := by
        intro hc
        exact ht.1 (by rw [htl, hc])
      simpa [Option.or] using this
  · refine List.chain'_append.mpr ⟨ht.2, chain'_of_no_space hu, ?_⟩
    rintro x hx y hy ⟨-, hy2⟩
    exact hu y (List.mem_of_mem_head? hy) hy2

theorem spacedOk_append_space {t : List Char} (ht : SpacedOk t)
    (hne : t ≠ []) (hlast : t.getLast? ≠ some ' ') :
    SpacedOk (t ++ [' ']) := by
  constructor
  · rw [List.head?_append]
    cases htl : t.head? with
    | none => exact absurd (List.head?_eq_none_iff.mp htl) hne
    | some a =>
      have : a ≠ ' ' := by
        intro hc
        exact ht.1 (by rw [htl, hc])
      simpa [Option.or] using this
  · refine List.chain'_append.mpr ⟨ht.2, List.chain'_singleton ' ', ?_⟩
    rintro x hx y hy ⟨hx2, -⟩
    rw [Option.mem_def] at hx
    exact hlast (by rw [hx, hx2])

/-- One update step keeps the buffer free of leading and doubled
separators, as long as the frame label itself holds no separator. -/
theorem step_spacedOk {s : State} {f : Frame} (hf : ' ' ∉ f.label.data)
    (h : SpacedOk s.typed_text) : SpacedOk (step s f).typed_text := by
  by_cases hh : f.hand = true
  · rw [step, update_hand_true hh]
    dsimp only
    by_cases hsend : f.label = SEND_TRIGGER_LABEL
    · rw [appendBlock_send_label hsend, sepBlock_send_label hsend]
      dsimp only
      rcases sendBlock_typed_cases (stabilize s f) f with hcase | hcase
      · rw [hcase, stabilize_typed_text]; exact h
      · rw [hcase]; exact spacedOk_nil
    · rw [sendBlock_other_label hsend]
      dsimp only
      by_cases hsep : f.label = WORD_SEPARATOR_LABEL
      · rw [appendBlock_sep_label hsep]
        by_cases hB : SepCond (stabilize s f) f
        · rw [sepBlock_pos hB]
          dsimp only
          rw [stabilize_typed_text]
          have hne : s.typed_text ≠ [] := by
            have h4 := hB.2.2.2.1
            rwa [stabilize_typed_text] at h4
          have hlast : s.typed_text.getLast? ≠ some ' ' := by
            have h5 := hB.2.2.2.2.1
            simp only [endsWithSpace, stabilize_typed_text,
              beq_eq_false_iff_ne, ne_eq] at h5
            exact h5
          exact spacedOk_append_space h hne hlast
        · rw [sepBlock_neg hB]
          dsimp only
          rw [stabilize_typed_text]
          exact h
      · rw [sepBlock_other_label hsep]
        dsimp only
        by_cases hC : AppendCond (stabilize s f) f
        · rw [appendBlock_pos hC]
          dsimp only
          rw [stabilize_typed_text]
          exact spacedOk_append_nospace h (fun c hc hceq => hf (hceq ▸ hc))
        · rw [appendBlock_neg hC, stabilize_typed_text]
          exact h
  · rw [step, update_hand_false (hand_false_of_not hh)]
    exact h

theorem run_spacedOk : ∀ (fs : List Frame) (s : State),
    (∀ f ∈ fs, ' ' ∉ f.label.data) → SpacedOk s.typed_text →
    SpacedOk (run s fs).typed_text := by
  intro fs
  induction fs with
  | nil =>
    intro s _ h
    exact h
  | cons g gs ih =>
    intro s hall h
    rw [run_cons]
    exact ih (step s g) (fun f hm => hall f (List.mem_cons_of_mem g hm))
      (step_spacedOk (hall g (List.mem_cons_self g gs)) h)

/-- C10: from a fresh session state, as long as no frame label contains
a space character, the text buffer never begins with a separator and
never holds two consecutive separators. -/
theorem c10_no_leading_or_double_space (fs : List Frame)
    (hf : ∀ f ∈ fs, ' ' ∉ f.label.data) :
    SpacedOk (run initState fs).typed_text :=
  run_spacedOk fs initState hf spacedOk_nil

/-- Witness for C10: a run that actually appends the two-character label
ab keeps the buffer well spaced. -/
theorem c10_no_leading_or_double_space_witness :
    (∀ f ∈ [(⟨"ab", 90, true, 100, 1, Except.ok ""⟩ : Frame),
        ⟨"ab", 90, true, 100, 2, Except.ok ""⟩], ' ' ∉ f.label.data) ∧
    SpacedOk (run initState
      [⟨"ab", 90, true, 100, 1, Except.ok ""⟩,
       ⟨"ab", 90, true, 100, 2, Except.ok ""⟩]).typed_text :=
  ⟨by decide,
   c10_no_leading_or_double_space
     [⟨"ab", 90, true, 100, 1, Except.ok ""⟩,
      ⟨"ab", 90, true, 100, 2, Except.ok ""⟩] (by decide)⟩

end LivePredict
